import Mathlib

/-!
Verification of the FESTADODAVI photobooth relay servers.

The repository contains several near-duplicate Node/Express + Socket.IO
relay servers.  This file gives a shallow embedding of the parts of the
code that the documented properties are about:

* the "persisted viewers" variant (the third block of `src/server.js`,
  with `handleIncomingPhotos`, `viewersStore`, `/upload_photos`,
  `/api/viewer/:viewerId`, `viewer_join`, `reset_session`);
* the first block of `src/server.js` (sessions with `lastFrame`,
  `join_session`, `stream_frame`);
* the variant of `src/unnamed/part_001` (`sessionState` with
  `lastFrameDataUrl`, `stream_pending` on join).

JavaScript objects used as maps are embedded as association lists kept in
insertion order (matching `Object.keys` enumeration order for string
keys), asynchronous uploads are embedded as pure functions from an
environment describing the image host, and the sources of randomness and
time (`uuidv4`, `Date.now`, `new Date().toISOString()`) are embedded as a
fresh counter threaded through the state, so that freshly generated
identifiers and file names are distinct and creation timestamps are
monotone.
-/

set_option autoImplicit false

/-! ## Generic association-list operations (JS objects / Maps as stores) -/

/-- Lookup of a key in an association list (first hit, like a JS object). -/
def lookupA {κ α : Type} [DecidableEq κ] : List (κ × α) → κ → Option α
  | [], _ => none
  | (k, v) :: rest, k0 => if k = k0 then some v else lookupA rest k0

/-- JS object assignment `o[k] = v`: replace the entry in place when the key
is present, otherwise append it (preserving insertion order). -/
def setA {κ α : Type} [DecidableEq κ] : List (κ × α) → κ → α → List (κ × α)
  | [], k0, v0 => [(k0, v0)]
  | (k, v) :: rest, k0, v0 =>
    if k = k0 then (k, v0) :: rest else (k, v) :: setA rest k0 v0

/-- JS `delete o[k]`: remove the entry with the given key. -/
def eraseA {κ α : Type} [DecidableEq κ] : List (κ × α) → κ → List (κ × α)
  | [], _ => []
  | (k, v) :: rest, k0 =>
    if k = k0 then eraseA rest k0 else (k, v) :: eraseA rest k0

/-! ## Character and string helpers used by the servers -/

/-- Prefix test on character lists (embedding of `String.prototype.startsWith`
and of anchored regular expressions). -/
def startsWithL : List Char → List Char → Bool
  | [], _ => true
  | _ :: _, [] => false
  | p :: ps, c :: cs => p == c && startsWithL ps cs

/-- `s.startsWith(pre)` on strings. -/
def strStarts (pre s : String) : Bool :=
  startsWithL pre.data s.data

/-- ASCII lower casing of one character (case folding used by the `i` flag of
the regular expression `/^https?:\/\//i`). -/
def lowerAscii (c : Char) : Char :=
  if 65 ≤ c.toNat ∧ c.toNat ≤ 90 then Char.ofNat (c.toNat + 32) else c

/-- Test of the regular expression `/^https?:\/\//i`. -/
def isHttpUrl (p : String) : Bool :=
  startsWithL "http://".data (p.data.map lowerAscii) ||
    startsWithL "https://".data (p.data.map lowerAscii)

/-- JS `\w` character class: ASCII letters, digits and underscore. -/
def wordChar (c : Char) : Bool :=
  c.isAlphanum || c == '_'

/-- Match of the regular expression `^data:(image\/\w+);base64,(.+)$` used by
`saveDataUrlToUploads`; returns the sub-type of the mime type and the base64
payload.  (`.` does not match line terminators, hence the newline check.) -/
def parseImageDataUrl (s : String) : Option (String × String) :=
  let l := s.data
  if startsWithL "data:image/".data l then
    let rest := l.drop 11
    let w := rest.takeWhile wordChar
    let rest2 := rest.drop w.length
    if w.isEmpty then none
    else if startsWithL ";base64,".data rest2 then
      let payload := rest2.drop 8
      if payload.isEmpty then none
      else if payload.any (fun c => c == '\n' || c == '\r') then none
      else some (⟨w⟩, ⟨payload⟩)
    else none
  else none

/-- Splitting a character list on a separator (embedding of
`String.prototype.split`). -/
def splitOnCharAux (sep : Char) : List Char → List Char → List (List Char)
  | [], acc => [acc.reverse]
  | c :: rest, acc =>
    if c == sep then acc.reverse :: splitOnCharAux sep rest []
    else splitOnCharAux sep rest (c :: acc)

/-- `s.split(sep)` on character lists. -/
def splitOnChar (sep : Char) (l : List Char) : List (List Char) :=
  splitOnCharAux sep l []

/-- `dataUrl.split(',')[1]`: the base64 part the server posts to the image
host. -/
def dataUrlTail (s : String) : String :=
  ⟨(splitOnChar ',' s.data).getD 1 []⟩

/-- `origin.replace(/\/+$/, '')`: drop trailing slashes. -/
def stripTrailingSlashes (s : String) : String :=
  ⟨(s.data.reverse.dropWhile (fun c => c == '/')).reverse⟩

/-! ## Base64 decoding (embedding of `Buffer.from(b64, 'base64')`) -/

/-- Value of one base64 alphabet character, `none` for characters outside the
alphabet (which Node's lenient decoder skips). -/
def b64Val (c : Char) : Option Nat :=
  if 65 ≤ c.toNat ∧ c.toNat ≤ 90 then some (c.toNat - 65)
  else if 97 ≤ c.toNat ∧ c.toNat ≤ 122 then some (c.toNat - 71)
  else if 48 ≤ c.toNat ∧ c.toNat ≤ 57 then some (c.toNat + 4)
  else if c == '+' then some 62
  else if c == '/' then some 63
  else none

/-- Regroup a list of 6-bit values into bytes. -/
def b64Groups : List Nat → List Nat
  | a :: b :: c :: d :: rest =>
    (a * 4 + b / 16) :: ((b % 16) * 16 + c / 4) :: ((c % 4) * 64 + d) :: b64Groups rest
  | [a, b] => [a * 4 + b / 16]
  | [a, b, c] => [a * 4 + b / 16, (b % 16) * 16 + c / 4]
  | _ => []

/-- Decode a base64 string to its byte list. -/
def base64Decode (s : String) : List Nat :=
  b64Groups (s.data.filterMap b64Val)

/-! ## Model of the persisted-viewers variant (third block of `src/server.js`)

Viewer identifiers (`uuidv4()` values) are embedded as natural numbers
drawn from the fresh counter; session identifiers stay strings. -/

/-- Opaque generated viewer identifier (a `uuidv4()` token). -/
abbrev ViewerId := Nat

/-- One viewer record inside `sessions[sessionId].viewers`. -/
structure ViewerRec where
  photos : List String
  storiesMontage : Option String
  printImage : Option String
  boomerang : Option String
  createdAt : Nat
  deriving DecidableEq, Repr

/-- One entry of the global `viewersStore` (also the shape persisted to a
`<viewerId>.json` file under `uploads/viewers`). -/
structure StoredViewer where
  viewerId : ViewerId
  session : String
  photos : List String
  storiesMontage : Option String
  printImage : Option String
  boomerang : Option String
  createdAt : Nat
  deriving DecidableEq, Repr

/-- One entry of the in-memory `sessions` object. -/
structure SessionObj where
  viewers : List (ViewerId × ViewerRec)
  operators : List Nat
  lastStreamFrame : Option String
  createdAt : Nat
  deriving DecidableEq, Repr

/-- Environment of the Upload Gateway: the configured API key
(`IMGBB_KEY`; `none` models the falsy empty string), availability of a
`fetch` implementation, the public origin (`VISUALIZADOR_ORIGIN`), and the
image host as an oracle from the posted base64 payload to the display URL
extracted from a success response (`none` models every failure: error
response, network error, or timeout/abort). -/
structure Env where
  imgbbKey : Option String
  fetchAvailable : Bool
  origin : String
  remote : String → Option String

/-- Server state of the persisted-viewers variant: the two in-memory
stores, the local uploads directory, the persisted viewer files on disk,
and the fresh counter standing for `uuidv4()` / `Date.now()`. -/
structure St where
  sessions : List (String × SessionObj)
  viewersStore : List (ViewerId × StoredViewer)
  uploads : List (String × List Nat)
  viewerFiles : List (ViewerId × StoredViewer)
  gen : Nat

/-- `ensureSession`: create the session entry on first access. -/
def ensureSession (st : St) (sid : String) : St :=
  match lookupA st.sessions sid with
  | some _ => st
  | none =>
    { st with
      sessions := setA st.sessions sid ⟨[], [], none, st.gen⟩
      gen := st.gen + 1 }

/-- `uploadToImgbbFromDataUrl`: fails when no API key is configured, when no
`fetch` is available, when the data URL has no comma-separated payload, or
when the host does not answer with a success payload carrying a non-empty
`display_url`/`url`; otherwise returns the host's display URL. -/
def uploadToImgbbFromDataUrl (env : Env) (dataUrl : String) : Option String :=
  if env.imgbbKey.isNone then none
  else if !env.fetchAvailable then none
  else if (splitOnChar ',' dataUrl.data).length < 2 then none
  else
    match env.remote (dataUrlTail dataUrl) with
    | some url => if url = "" then none else some url
    | none => none

/-- File extension chosen by `saveDataUrlToUploads`:
`(extRaw === 'jpeg') ? 'jpg' : extRaw.replace(/[^a-z0-9]/gi, '')`. -/
def extOf (ext0 : String) : String :=
  if ext0 = "jpeg" then "jpg" else ⟨ext0.data.filter (fun c => c.isAlphanum)⟩

/-- Generated local file name
`${filenamePrefix}-${Date.now()}-${uuidv4()}.${ext}`; the time stamp and the
uuid are embedded as one fresh token. -/
def fileNameOf (pfx : String) (tok : Nat) (ext0 : String) : String :=
  pfx ++ "-" ++ Nat.repr tok ++ "." ++ extOf ext0

/-- Public URL of a locally saved file:
`${VISUALIZADOR_ORIGIN.replace(/\/+$/, '')}/uploads/${name}`. -/
def publicUrlOf (env : Env) (name : String) : String :=
  stripTrailingSlashes env.origin ++ "/uploads/" ++ name

/-- `saveDataUrlToUploads`: parse the image data URL, decode the base64
payload, write it to the uploads directory and return the public URL; the
write is returned as a `(name, bytes)` pair so the caller merges it into the
file store.  `none` embeds the thrown `Invalid data url` error. -/
def saveDataUrlToUploads (env : Env) (tok : Nat) (dataUrl pfx : String) :
    Option (String × (String × List Nat)) :=
  match parseImageDataUrl dataUrl with
  | none => none
  | some (ext0, b64) =>
    let name := fileNameOf pfx tok ext0
    some (publicUrlOf env name, (name, base64Decode b64))

/-- One photo slot of `handleIncomingPhotos` (index `i`, fresh token `tok`):
data URLs go to the image host when a key and `fetch` are available
(falling back to the local save on failure), otherwise directly to the local
save; `http(s)://` URLs pass through; anything else resolves to `null`.
Returns the slot's URL outcome and the file writes it performed. -/
def uploadSlot (env : Env) (tok i : Nat) (p : String) :
    Option String × List (String × List Nat) :=
  if strStarts "data:" p then
    if env.imgbbKey.isSome && env.fetchAvailable then
      match uploadToImgbbFromDataUrl env p with
      | some url => (some url, [])
      | none =>
        match saveDataUrlToUploads env tok p ("photo_" ++ Nat.repr i) with
        | some (url, file) => (some url, [file])
        | none => (none, [])
    else
      match saveDataUrlToUploads env tok p ("photo_" ++ Nat.repr i) with
      | some (url, file) => (some url, [file])
      | none => (none, [])
  else if isHttpUrl p then (some p, [])
  else (none, [])

/-- The `storiesMontage` / `print` task of `handleIncomingPhotos` (same
shape as a photo slot, guarded by the falsy check `if (!x) return null`). -/
def sideUpload (env : Env) (tok : Nat) (pfx : String) (x : Option String) :
    Option String × List (String × List Nat) :=
  match x with
  | none => (none, [])
  | some s =>
    if s = "" then (none, [])
    else if strStarts "data:" s then
      if env.imgbbKey.isSome && env.fetchAvailable then
        match uploadToImgbbFromDataUrl env s with
        | some url => (some url, [])
        | none =>
          match saveDataUrlToUploads env tok s pfx with
          | some (url, file) => (some url, [file])
          | none => (none, [])
      else
        match saveDataUrlToUploads env tok s pfx with
        | some (url, file) => (some url, [file])
        | none => (none, [])
    else if isHttpUrl s then (some s, [])
    else (none, [])

/-- Indexed map used to launch one task per photo slot. -/
def mapIdx {α β : Type} (f : Nat → α → β) : Nat → List α → List β
  | _, [] => []
  | i, p :: rest => f i p :: mapIdx f (i + 1) rest

/-- Fan-out of `handleIncomingPhotos` over the first three photos: slot `i`
runs with its own fresh token `base + i`. -/
def slotResults (env : Env) (base : Nat) (photos : List String) :
    List (Option String × List (String × List Nat)) :=
  mapIdx (fun i p => uploadSlot env (base + i) i p) 0 (photos.take 3)

/-- JS `x || null` on an optional string: the empty string is falsy. -/
def truthy (o : Option String) : Option String :=
  match o with
  | some s => if s = "" then none else some s
  | none => none

/-- Merge a list of file writes into the uploads directory. -/
def applyWrites (fs ws : List (String × List Nat)) : List (String × List Nat) :=
  ws.foldl (fun acc w => setA acc w.1 w.2) fs

/-- Update one session entry in place. -/
def modifySession : List (String × SessionObj) → String → (SessionObj → SessionObj) →
    List (String × SessionObj)
  | [], _, _ => []
  | (k, v) :: rest, sid, f =>
    if k = sid then (k, f v) :: modifySession rest sid f
    else (k, v) :: modifySession rest sid f

/-- Arguments of `handleIncomingPhotos` (the empty session string models a
missing `session`, defaulted to `cabine-fixa`). -/
structure HipArgs where
  session : String
  photos : List String
  storiesMontage : Option String
  printImage : Option String
  providedViewerId : Option ViewerId

/-- Effective session id of a finalize call. -/
def hipSess (args : HipArgs) : String :=
  if args.session = "" then "cabine-fixa" else args.session

/-- First phase of `handleIncomingPhotos`: ensure the session, mint the
viewer id when none is provided, and store the placeholder record
`{ photos: [], storiesMontage: null, print: null, boomerang: null, createdAt }`. -/
def hipPlaceholder (st : St) (args : HipArgs) : ViewerId × St :=
  let sid := hipSess args
  let st1 := ensureSession st sid
  let (vid, st2) :=
    match args.providedViewerId with
    | some v => (v, st1)
    | none => (st1.gen, { st1 with gen := st1.gen + 1 })
  let st3 :=
    { st2 with
      sessions := modifySession st2.sessions sid
        (fun s => { s with viewers := setA s.viewers vid ⟨[], none, none, none, st2.gen⟩ })
      gen := st2.gen + 1 }
  (vid, st3)

/-- The list of per-photo outcomes of a finalize call (`photoResults` after
`Promise.allSettled([Promise.all(photoTasks), ...])`; every photo task
resolves, so the combined task fulfills with this list). -/
def hipPhotoResults (env : Env) (st : St) (args : HipArgs) : List (Option String) :=
  (slotResults env (hipPlaceholder st args).2.gen args.photos).map Prod.fst

/-- `photoResults.filter(Boolean).slice(0, 3)`. -/
def finalPhotosOf (results : List (Option String)) : List String :=
  ((results.filterMap id).filter (fun u => u ≠ "")).take 3

/-- Second phase of `handleIncomingPhotos` (after every upload outcome is
known): build `finalPhotos`, overwrite the session's viewer record, the
global `viewersStore` entry and the persisted viewer file, and merge the
local file writes. -/
def hipFinalize (env : Env) (st : St) (args : HipArgs) (vid : ViewerId) : St :=
  let sid := hipSess args
  let base := st.gen
  let slots := slotResults env base args.photos
  let photoResults := slots.map Prod.fst
  let (storyUrl, storyFiles) := sideUpload env (base + 3) "stories" args.storiesMontage
  let (printUrl, printFiles) := sideUpload env (base + 4) "print" args.printImage
  let finalPhotos := finalPhotosOf photoResults
  let nowT := base + 5
  let vrec : ViewerRec := ⟨finalPhotos, truthy storyUrl, truthy printUrl, none, nowT⟩
  let stored : StoredViewer := ⟨vid, sid, finalPhotos, truthy storyUrl, truthy printUrl, none, nowT⟩
  { st with
    sessions := modifySession st.sessions sid
      (fun s => { s with viewers := setA s.viewers vid vrec })
    viewersStore := setA st.viewersStore vid stored
    viewerFiles := setA st.viewerFiles vid stored
    uploads := applyWrites st.uploads ((slots.map Prod.snd).flatten ++ storyFiles ++ printFiles)
    gen := base + 6 }

/-- Full run of `handleIncomingPhotos`: the minted viewer id, the state
right after the placeholder write (uploads still in flight), and the final
state. -/
def hipRun (env : Env) (st : St) (args : HipArgs) : ViewerId × St × St :=
  let (vid, st1) := hipPlaceholder st args
  (vid, st1, hipFinalize env st1 args vid)

/-- Record of a session's viewer map, if any. -/
def sessionViewerLookup (st : St) (sid : String) (vid : ViewerId) : Option ViewerRec :=
  (lookupA st.sessions sid).bind (fun s => lookupA s.viewers vid)

/-- Every viewer identifier present in either store (identifiers previously
issued by the store). -/
def issuedIds (st : St) : List ViewerId :=
  st.viewersStore.map Prod.fst ++ (st.sessions.map (fun s => s.2.viewers.map Prod.fst)).flatten

/-- Invariant of the fresh-counter embedding: every issued identifier is
below the counter. -/
def freshSt (st : St) : Prop :=
  ∀ id ∈ issuedIds st, id < st.gen

/-! ### HTTP surface of the persisted-viewers variant -/

/-- Response of `GET /api/viewer/:viewerId`. -/
inductive ApiResp where
  | badRequest
  | notFound
  | found (v : StoredViewer)
  deriving DecidableEq, Repr

/-- `GET /api/viewer/:viewerId`: 400 on a missing id, 404 when the id is not
in `viewersStore`, otherwise the stored record. -/
def apiViewerGet (st : St) (vidParam : Option ViewerId) : ApiResp :=
  match vidParam with
  | none => .badRequest
  | some vid =>
    match lookupA st.viewersStore vid with
    | none => .notFound
    | some v => .found v

/-- `visualizadorUrl` built for a viewer id. -/
def visUrl (env : Env) (vid : ViewerId) : String :=
  stripTrailingSlashes env.origin ++ "/visualizador.html?session=" ++ Nat.repr vid

/-- Immediate JSON response of `POST /upload_photos`. -/
structure UploadResp where
  ok : Bool
  viewerId : ViewerId
  visualizadorUrl : String
  deriving DecidableEq, Repr

/-- Outcome of `POST /upload_photos`: the 400 branch, or the immediate
response together with the trace of store states (after the route's
placeholder write and response, after `handleIncomingPhotos`'s placeholder
write, and after the uploads resolved). -/
inductive RouteOut where
  | badRequest
  | accepted (resp : UploadResp) (afterResponse afterPlaceholder final : St)

/-- Store state after the placeholder write of `POST /upload_photos`
(the minted id is `st.gen`, the `uuidv4()` drawn before `ensureSession`). -/
def routePlaceholderState (st : St) (session : String) : St :=
  let st1 := ensureSession { st with gen := st.gen + 1 } session
  { st1 with
    sessions := modifySession st1.sessions session
      (fun s => { s with viewers := setA s.viewers st.gen ⟨[], none, none, none, st1.gen⟩ })
    gen := st1.gen + 1 }

/-- `POST /upload_photos`: reject a missing session or empty photos array;
otherwise mint a viewer id, store the placeholder, respond immediately and
run `handleIncomingPhotos` in the background with the minted id. -/
def uploadPhotosRoute (env : Env) (st : St) (session : String)
    (photos : List String) : RouteOut :=
  if session = "" ∨ photos.isEmpty then .badRequest
  else
    let st2 := routePlaceholderState st session
    let resp : UploadResp := ⟨true, st.gen, visUrl env st.gen⟩
    let (_, st3, st4) := hipRun env st2 ⟨session, photos, none, none, some st.gen⟩
    .accepted resp st2 st3 st4

/-! ### `viewer_join` and `reset_session` of the persisted-viewers variant -/

/-- The scan of the `viewer_join` session-only branch:
start from the first key and replace the champion on a strictly later
`createdAt`. -/
def pickAux : ViewerId × ViewerRec → List (ViewerId × ViewerRec) → ViewerId × ViewerRec
  | acc, [] => acc
  | acc, kv :: rest => pickAux (if acc.2.createdAt < kv.2.createdAt then kv else acc) rest

/-- `viewer_join` without an explicit id: pick the session viewer with the
latest `createdAt` (the loop runs over every key, the champion starting at
the first one). -/
def pickLatest : List (ViewerId × ViewerRec) → Option (ViewerId × ViewerRec)
  | [] => none
  | kv0 :: rest => some (pickAux kv0 (kv0 :: rest))

/-- Payload emitted as `viewer_photos_ready` from a session viewer record
(the `|| null` defaults turn empty strings into `null`). -/
def payloadOf (v : ViewerRec) : ViewerRec :=
  ⟨v.photos, truthy v.storiesMontage, truthy v.printImage, truthy v.boomerang, v.createdAt⟩

/-- Result of a `viewer_join` event: the viewer room joined (if any) and the
`viewer_photos_ready` payload delivered to the caller (if any). -/
structure VJRes where
  joinedRoom : Option ViewerId
  delivered : Option (ViewerId × ViewerRec)
  deriving DecidableEq, Repr

/-- First session (in insertion order) whose viewer map holds the id, used
by the by-id fallback scan of `viewer_join`. -/
def scanSessionsFor (ss : List (String × SessionObj)) (vid : ViewerId) : Option ViewerRec :=
  match ss with
  | [] => none
  | (_, s) :: rest =>
    match lookupA s.viewers vid with
    | some v => some v
    | none => scanSessionsFor rest vid

/-- The `viewer_join` handler: by id it joins the viewer room and delivers
the persisted record (or the first session copy); by session only it
resolves the latest viewer record of that session, joins its room and
delivers its payload. -/
def viewerJoin (st : St) (vidParam : Option ViewerId) (session : String) : VJRes :=
  match vidParam with
  | some vid =>
    let delivered :=
      match lookupA st.viewersStore vid with
      | some stored =>
        some (vid, payloadOf ⟨stored.photos, stored.storiesMontage, stored.printImage,
          stored.boomerang, stored.createdAt⟩)
      | none =>
        match scanSessionsFor st.sessions vid with
        | some v => some (vid, payloadOf v)
        | none => none
    ⟨some vid, delivered⟩
  | none =>
    if session = "" then ⟨none, none⟩
    else
      match lookupA st.sessions session with
      | none => ⟨none, none⟩
      | some s =>
        match pickLatest s.viewers with
        | none => ⟨none, none⟩
        | some (k, v) => ⟨some k, some (k, payloadOf v)⟩

/-- `reset_session` of the persisted-viewers variant: delete the in-memory
session entry (when present) and keep `viewersStore` and the persisted
viewer files untouched. -/
def resetSessionV3 (st : St) (session : String) : St :=
  if session = "" then st
  else
    match lookupA st.sessions session with
    | some _ => { st with sessions := eraseA st.sessions session }
    | none => st

/-! ## Model of the first block of `src/server.js` (for the stream relay)

Sockets are embedded as numbers; the handlers return the new state and a
list of emitted events. -/

/-- Events this variant emits that matter here. -/
inductive V1Ev where
  | streamFrame (session frame : String)
  | viewerCount (viewers : Nat)
  | peerJoined (id : Nat) (session : String)
  deriving DecidableEq, Repr

/-- An emission: directly to one socket or to a session room. -/
inductive V1Emit where
  | toSocket (sock : Nat) (ev : V1Ev)
  | toRoom (room : String) (ev : V1Ev)
  deriving DecidableEq, Repr

/-- One session of the first variant (`operators`/`viewers` socket-id sets
and the cached `lastFrame`). -/
structure V1Session where
  operators : List Nat
  viewers : List Nat
  lastFrame : Option String
  deriving DecidableEq, Repr

/-- State of the first variant. -/
structure V1St where
  sessions : List (String × V1Session)
  deriving DecidableEq, Repr

/-- `Set.prototype.add` on a socket-id list. -/
def addSock (x : Nat) (l : List Nat) : List Nat :=
  if x ∈ l then l else l ++ [x]

/-- `getSessionObj`: get-or-create. -/
def v1GetSession (st : V1St) (sid : String) : V1Session :=
  (lookupA st.sessions sid).getD ⟨[], [], none⟩

/-- `join_session` of the first variant: register the socket under its role,
notify the room (`peer_joined` for operators, then the viewer count), and
backfill the joining socket with the cached last frame when one exists. -/
def v1Join (st : V1St) (sock : Nat) (session role : String) : V1St × List V1Emit :=
  if session = "" then (st, [])
  else
    let s := v1GetSession st session
    let s2 :=
      if role = "operator" then { s with operators := addSock sock s.operators }
      else { s with viewers := addSock sock s.viewers }
    let st2 : V1St := ⟨setA st.sessions session s2⟩
    let e1 := if role = "operator" then [V1Emit.toRoom session (.peerJoined sock session)] else []
    let e2 := [V1Emit.toRoom session (.viewerCount s2.viewers.length)]
    let e3 :=
      match s2.lastFrame with
      | some f => [V1Emit.toSocket sock (.streamFrame session f)]
      | none => []
    (st2, e1 ++ e2 ++ e3)

/-- `stream_frame` of the first variant: cache the frame as the session's
last frame and relay it to every viewer socket (not back to the operator). -/
def v1StreamFrame (st : V1St) (session frame : String) : V1St × List V1Emit :=
  if session = "" ∨ frame = "" then (st, [])
  else
    let s := v1GetSession st session
    let s2 := { s with lastFrame := some frame }
    (⟨setA st.sessions session s2⟩,
      s2.viewers.map (fun v => V1Emit.toSocket v (.streamFrame session frame)))

/-! ## Model of `src/unnamed/part_001` (reset and `stream_pending`) -/

/-- Events of the `part_001` variant that matter here. -/
inductive P1Ev where
  | streamFrame (session frame : String)
  | streamPending (session : String)
  | peerJoined (id : Nat) (session : String)
  | viewerCount (viewers operators : Nat)
  | resetEvent (session : String)
  deriving DecidableEq, Repr

/-- An emission of the `part_001` variant. -/
inductive P1Emit where
  | toSocket (sock : Nat) (ev : P1Ev)
  | toRoom (room : String) (ev : P1Ev)
  deriving DecidableEq, Repr

/-- Membership sets of one `part_001` session. -/
structure P1Members where
  operators : List Nat
  viewers : List Nat
  deriving DecidableEq, Repr

/-- State of the `part_001` variant: the `sessions` membership object and
the parallel `sessionState` object holding `lastFrameDataUrl`. -/
structure P1St where
  sessions : List (String × P1Members)
  sessionState : List (String × Option String)
  deriving DecidableEq, Repr

/-- `FIXED_SESSION` default (`session || FIXED_SESSION`). -/
def p1Sid (session : String) : String :=
  if session = "" then "cabine-fixa" else session

/-- `ensureSession` of `part_001`: create both the membership entry and the
`sessionState` entry (with a null last frame) on first access. -/
def p1Ensure (st : P1St) (sid : String) : P1St :=
  match lookupA st.sessions sid with
  | some _ => st
  | none =>
    ⟨setA st.sessions sid ⟨[], []⟩, setA st.sessionState sid none⟩

/-- `join_session` of `part_001`.  The viewer branch notifies the operators
room, then backfills the joining socket with the cached frame when one is
present and emits `stream_pending` otherwise; both branches then emit the
member counts to both rooms. -/
def p1Join (st : P1St) (sock : Nat) (session role : String) : P1St × List P1Emit :=
  let sid := p1Sid session
  let st1 := p1Ensure st sid
  let m := (lookupA st1.sessions sid).getD ⟨[], []⟩
  let roleEff := if role = "" then "viewer" else role
  let last := (lookupA st1.sessionState sid).getD none
  let (m2, e1) :=
    if roleEff = "operator" then
      ({ m with operators := addSock sock m.operators },
        match last with
        | some f => [P1Emit.toSocket sock (.streamFrame sid f)]
        | none => [])
    else
      ({ m with viewers := addSock sock m.viewers },
        [P1Emit.toRoom (sid ++ ":operators") (.peerJoined sock sid)] ++
          (match last with
           | some f => [P1Emit.toSocket sock (.streamFrame sid f)]
           | none => [P1Emit.toSocket sock (.streamPending sid)]))
  let st2 : P1St := ⟨setA st1.sessions sid m2, st1.sessionState⟩
  let counts := [P1Emit.toRoom (sid ++ ":operators") (.viewerCount m2.viewers.length m2.operators.length),
    P1Emit.toRoom (sid ++ ":viewers") (.viewerCount m2.viewers.length m2.operators.length)]
  (st2, e1 ++ counts)

/-- `reset_session` of `part_001`: notify both rooms and null the cached
frame when the session has a `sessionState` entry (membership is kept). -/
def p1Reset (st : P1St) (session : String) : P1St × List P1Emit :=
  let sid := p1Sid session
  let emits := [P1Emit.toRoom (sid ++ ":viewers") (.resetEvent sid),
    P1Emit.toRoom (sid ++ ":operators") (.resetEvent sid)]
  match lookupA st.sessionState sid with
  | some _ => (⟨st.sessions, setA st.sessionState sid none⟩, emits)
  | none => (st, emits)

/-! ## Basic lemmas about the store operations -/

theorem lookupA_setA_self {κ α : Type} [DecidableEq κ] (l : List (κ × α)) (k : κ) (v : α) :
    lookupA (setA l k v) k = some v := by
  induction l with
  | nil => simp [setA, lookupA]
  | cons kv rest ih =>
    obtain ⟨k1, v1⟩ := kv
    by_cases h : k1 = k
    · simp [setA, h, lookupA]
    · simp [setA, h, lookupA, ih]

theorem lookupA_setA_ne {κ α : Type} [DecidableEq κ] (l : List (κ × α)) (k k2 : κ) (v : α)
    (h : k ≠ k2) : lookupA (setA l k v) k2 = lookupA l k2 := by
  induction l with
  | nil => simp [setA, lookupA, h]
  | cons kv rest ih =>
    obtain ⟨k1, v1⟩ := kv
    by_cases h1 : k1 = k
    · subst h1
      simp [setA, lookupA, h, ih]
    · simp [setA, h1, lookupA, ih]

theorem lookupA_eraseA_self {κ α : Type} [DecidableEq κ] (l : List (κ × α)) (k : κ) :
    lookupA (eraseA l k) k = none := by
  induction l with
  | nil => simp [eraseA, lookupA]
  | cons kv rest ih =>
    obtain ⟨k1, v1⟩ := kv
    by_cases h : k1 = k
    · simpa [eraseA, h] using ih
    · simpa [eraseA, lookupA, h] using ih

theorem lookupA_eraseA_ne {κ α : Type} [DecidableEq κ] (l : List (κ × α)) (k k2 : κ)
    (h : k ≠ k2) : lookupA (eraseA l k) k2 = lookupA l k2 := by
  induction l with
  | nil => simp [eraseA, lookupA]
  | cons kv rest ih =>
    obtain ⟨k1, v1⟩ := kv
    by_cases h1 : k1 = k
    · subst h1
      simp [eraseA, lookupA, h, ih]
    · simp [eraseA, lookupA, h1, ih]

theorem lookupA_modifySession_self (ss : List (String × SessionObj)) (sid : String)
    (f : SessionObj → SessionObj) :
    lookupA (modifySession ss sid f) sid = (lookupA ss sid).map f := by
  induction ss with
  | nil => simp [modifySession, lookupA]
  | cons kv rest ih =>
    obtain ⟨k1, v1⟩ := kv
    by_cases h : k1 = sid
    · simp [modifySession, lookupA, h]
    · simp [modifySession, lookupA, h, ih]

theorem lookupA_modifySession_ne (ss : List (String × SessionObj)) (sid sid2 : String)
    (f : SessionObj → SessionObj) (h : sid ≠ sid2) :
    lookupA (modifySession ss sid f) sid2 = lookupA ss sid2 := by
  induction ss with
  | nil => simp [modifySession, lookupA]
  | cons kv rest ih =>
    obtain ⟨k1, v1⟩ := kv
    by_cases h1 : k1 = sid
    · subst h1
      simp [modifySession, lookupA, h, ih]
    · simp [modifySession, lookupA, h1, ih]

theorem lookupA_ensureSession_self (st : St) (sid : String) :
    ∃ s, lookupA (ensureSession st sid).sessions sid = some s := by
  unfold ensureSession
  cases h : lookupA st.sessions sid with
  | none =>
    refine ⟨⟨[], [], none, st.gen⟩, ?_⟩
    simp [h, lookupA_setA_self]
  | some s => exact ⟨s, by simp [h]⟩

theorem gen_ensureSession (st : St) (sid : String) : st.gen ≤ (ensureSession st sid).gen := by
  unfold ensureSession
  cases h : lookupA st.sessions sid <;> simp

/-! ## Lemmas about `mapIdx` and the photo fan-out -/

theorem mapIdx_length {α β : Type} (f : Nat → α → β) (i : Nat) (l : List α) :
    (mapIdx f i l).length = l.length := by
  induction l generalizing i with
  | nil => rfl
  | cons x rest ih => simp [mapIdx, ih]

theorem mapIdx_get {α β : Type} (f : Nat → α → β) (i : Nat) (l : List α) (j : Nat)
    (hj : j < l.length) :
    (mapIdx f i l).get ⟨j, by rwa [mapIdx_length]⟩ = f (i + j) (l.get ⟨j, hj⟩) := by
  induction l generalizing i j with
  | nil => exact absurd hj (by simp)
  | cons x rest ih =>
    cases j with
    | zero => simp [mapIdx]
    | succ j2 =>
      have := ih (i + 1) j2 (by simpa using Nat.lt_of_succ_lt_succ hj)
      simpa [mapIdx, Nat.add_assoc, Nat.add_comm 1 j2] using this

/-! ## Lemmas about string prefixes -/

theorem startsWithL_iff_take (p s : List Char) :
    startsWithL p s = true ↔ s.take p.length = p := by
  induction p generalizing s with
  | nil => simp [startsWithL]
  | cons c cs ih =>
    cases s with
    | nil => simp [startsWithL]
    | cons d ds =>
      simp only [startsWithL, List.length_cons, List.take_succ_cons, Bool.and_eq_true, beq_iff_eq,
        List.cons.injEq, ih]
      constructor
      · rintro ⟨h1, h2⟩; exact ⟨h1.symm, h2⟩
      · rintro ⟨h1, h2⟩; exact ⟨h1.symm, h2⟩

theorem mem_of_startsWithL {p s : List Char} (h : startsWithL p s = true) {c : Char}
    (hc : c ∈ p) : c ∈ s := by
  rw [startsWithL_iff_take] at h
  exact List.mem_of_mem_take (h ▸ hc)

/-! ## Non-emptiness of the produced URLs -/

theorem publicUrlOf_ne_empty (env : Env) (name : String) : publicUrlOf env name ≠ "" := by
  intro h
  have hl : (publicUrlOf env name).length = 0 := by rw [h]; rfl
  rw [publicUrlOf, String.length_append, String.length_append] at hl
  have h9 : ("/uploads/" : String).length = 9 := rfl
  omega

theorem ne_empty_of_isHttpUrl {p : String} (h : isHttpUrl p = true) : p ≠ "" := by
  intro he
  subst he
  exact absurd h (by decide)

theorem uploadToImgbb_ne_empty {env : Env} {p u : String}
    (h : uploadToImgbbFromDataUrl env p = some u) : u ≠ "" := by
  unfold uploadToImgbbFromDataUrl at h
  split at h
  · exact absurd h (by simp)
  · split at h
    · exact absurd h (by simp)
    · split at h
      · exact absurd h (by simp)
      · split at h
        · rename_i url heq
          split at h
          · exact absurd h (by simp)
          · rename_i hne
            obtain rfl : url = u := by injection h
            exact hne
        · exact absurd h (by simp)

theorem saveDataUrl_eq {env : Env} {tok : Nat} {dataUrl pfx : String}
    {r : String × (String × List Nat)}
    (h : saveDataUrlToUploads env tok dataUrl pfx = some r) :
    ∃ ext0 b64, parseImageDataUrl dataUrl = some (ext0, b64) ∧
      r = (publicUrlOf env (fileNameOf pfx tok ext0),
        (fileNameOf pfx tok ext0, base64Decode b64)) := by
  unfold saveDataUrlToUploads at h
  split at h
  · exact absurd h (by simp)
  · rename_i ext0 b64 heq
    refine ⟨ext0, b64, heq, ?_⟩
    simpa using h.symm

theorem uploadSlot_some_ne_empty {env : Env} {tok i : Nat} {p u : String}
    (h : (uploadSlot env tok i p).1 = some u) : u ≠ "" := by
  unfold uploadSlot at h
  split at h
  · split at h
    · split at h
      · rename_i url heq
        obtain rfl : url = u := by injection h
        exact uploadToImgbb_ne_empty heq
      · split at h
        · rename_i url file heq
          obtain ⟨ext0, b64, hp, hr⟩ := saveDataUrl_eq heq
          obtain rfl : url = u := by injection h
          have : url = publicUrlOf env (fileNameOf ("photo_" ++ Nat.repr i) tok ext0) := by
            have := congrArg Prod.fst hr
            simpa using this
          rw [this]
          exact publicUrlOf_ne_empty env _
        · exact absurd h (by simp)
    · split at h
      · rename_i url file heq
        obtain ⟨ext0, b64, hp, hr⟩ := saveDataUrl_eq heq
        obtain rfl : url = u := by injection h
        have : url = publicUrlOf env (fileNameOf ("photo_" ++ Nat.repr i) tok ext0) := by
          have := congrArg Prod.fst hr
          simpa using this
        rw [this]
        exact publicUrlOf_ne_empty env _
      · exact absurd h (by simp)
  · split at h
    · rename_i hhttp
      obtain rfl : p = u := by injection h
      exact ne_empty_of_isHttpUrl hhttp
    · exact absurd h (by simp)

/-! ## Lemmas about splitting and the data-URL shape -/

theorem splitOnCharAux_length_pos (sep : Char) (l acc : List Char) :
    1 ≤ (splitOnCharAux sep l acc).length := by
  induction l generalizing acc with
  | nil => simp [splitOnCharAux]
  | cons c rest ih =>
    by_cases h : c == sep
    · rw [splitOnCharAux, if_pos h, List.length_cons]
      omega
    · rw [splitOnCharAux, if_neg h]
      exact ih (c :: acc)

theorem splitOnCharAux_two_le (sep : Char) (l : List Char) (h : sep ∈ l) (acc : List Char) :
    2 ≤ (splitOnCharAux sep l acc).length := by
  induction l generalizing acc with
  | nil => cases h
  | cons c rest ih =>
    by_cases hc : c = sep
    · subst hc
      rw [splitOnCharAux, if_pos (by simp), List.length_cons]
      have := splitOnCharAux_length_pos c rest []
      omega
    · have hmem : sep ∈ rest := (List.mem_cons.mp h).resolve_left (fun he => hc he.symm)
      rw [splitOnCharAux, if_neg (by simpa using hc)]
      exact ih hmem (c :: acc)

theorem splitOnChar_two_le (sep : Char) (l : List Char) (h : sep ∈ l) :
    2 ≤ (splitOnChar sep l).length :=
  splitOnCharAux_two_le sep l h []

theorem parseImageDataUrl_comma {s : String} {ext0 b64 : String}
    (h : parseImageDataUrl s = some (ext0, b64)) : ',' ∈ s.data := by
  by_cases h2 : startsWithL ";base64,".data
      ((s.data.drop 11).drop ((s.data.drop 11).takeWhile wordChar).length) = true
  · have hc : ',' ∈ (";base64," : String).data := by decide
    exact List.mem_of_mem_drop (List.mem_of_mem_drop (mem_of_startsWithL h2 hc))
  · rw [parseImageDataUrl] at h
    simp only [] at h
    by_cases h1 : startsWithL "data:image/".data s.data = true
    · rw [if_pos h1] at h
      by_cases h3 : ((s.data.drop 11).takeWhile wordChar).isEmpty = true
      · rw [if_pos h3] at h
        exact absurd h (by simp)
      · rw [if_neg h3, if_neg h2] at h
        exact absurd h (by simp)
    · rw [if_neg h1] at h
      exact absurd h (by simp)

/-! ## Prefix lemmas for the URL classification -/

theorem startsWithL_map (f : Char → Char) :
    ∀ {p s : List Char}, startsWithL p s = true → startsWithL (p.map f) (s.map f) = true
  | [], _, _ => rfl
  | _ :: _, [], h => by simp [startsWithL] at h
  | c :: cs, d :: ds, h => by
    rw [startsWithL, Bool.and_eq_true, beq_iff_eq] at h
    obtain ⟨rfl, h2⟩ := h
    rw [List.map_cons, List.map_cons, startsWithL, Bool.and_eq_true, beq_iff_eq]
    exact ⟨rfl, startsWithL_map f h2⟩

theorem startsWithL_shorter :
    ∀ {p q s : List Char}, startsWithL p s = true → startsWithL q s = true →
      p.length ≤ q.length → startsWithL p q = true
  | [], _, _, _, _, _ => rfl
  | _ :: _, [], _, _, _, hlen => by simp at hlen
  | p :: ps, q :: qs, s, hp, hq, hlen => by
    cases s with
    | nil => simp [startsWithL] at hp
    | cons c cs =>
      rw [startsWithL, Bool.and_eq_true, beq_iff_eq] at hp hq
      obtain ⟨rfl, hp2⟩ := hp
      obtain ⟨rfl, hq2⟩ := hq
      rw [startsWithL, Bool.and_eq_true, beq_iff_eq]
      exact ⟨rfl, startsWithL_shorter hp2 hq2 (by simpa using hlen)⟩

theorem isHttpUrl_of_starts {p : String}
    (h : strStarts "http://" p = true ∨ strStarts "https://" p = true) :
    isHttpUrl p = true := by
  rw [isHttpUrl, Bool.or_eq_true]
  rcases h with h | h
  · left
    have := startsWithL_map lowerAscii h
    rwa [show ("http://".data.map lowerAscii) = "http://".data from by decide] at this
  · right
    have := startsWithL_map lowerAscii h
    rwa [show ("https://".data.map lowerAscii) = "https://".data from by decide] at this

theorem not_data_of_http {p : String}
    (h : strStarts "http://" p = true ∨ strStarts "https://" p = true) :
    strStarts "data:" p = false := by
  by_contra hbad
  rw [Bool.not_eq_false] at hbad
  rcases h with h | h
  · exact absurd (startsWithL_shorter hbad h (by decide)) (by decide)
  · exact absurd (startsWithL_shorter hbad h (by decide)) (by decide)

/-! ## Length of the filtered photo outcomes -/

theorem filterMap_filter_length (l : List (Option String))
    (h : ∀ x ∈ l, ∃ u, x = some u ∧ u ≠ "") :
    (((l.filterMap id).filter (fun u => u ≠ "")).length) = l.length := by
  induction l with
  | nil => rfl
  | cons x rest ih =>
    obtain ⟨u, rfl, hu⟩ := h x (by simp)
    simp only [List.filterMap_cons, id, List.filter_cons, List.length_cons]
    rw [if_pos (by simpa using hu), List.length_cons,
      ih (fun y hy => h y (List.mem_cons_of_mem _ hy))]

theorem finalPhotosOf_length (l : List (Option String))
    (h : ∀ x ∈ l, ∃ u, x = some u ∧ u ≠ "") (hlen : l.length ≤ 3) :
    (finalPhotosOf l).length = l.length := by
  rw [finalPhotosOf, List.take_of_length_le, filterMap_filter_length l h]
  rw [filterMap_filter_length l h]
  exact hlen

/-! ## The latest-record scan of `viewer_join` -/

theorem pickAux_spec (l : List (ViewerId × ViewerRec)) (acc : ViewerId × ViewerRec) :
    (pickAux acc l = acc ∧ ∀ kv ∈ l, kv.2.createdAt ≤ acc.2.createdAt) ∨
    (∃ i, ∃ hi : i < l.length,
      pickAux acc l = l[i] ∧
      acc.2.createdAt < (pickAux acc l).2.createdAt ∧
      (∀ kv ∈ l, kv.2.createdAt ≤ (pickAux acc l).2.createdAt) ∧
      ∀ j, ∀ hj : j < i, (l.get ⟨j, by omega⟩).2.createdAt < (pickAux acc l).2.createdAt) := by
  induction l generalizing acc with
  | nil => exact Or.inl ⟨rfl, by simp⟩
  | cons kv rest ih =>
    by_cases hcmp : acc.2.createdAt < kv.2.createdAt
    · have hstep : pickAux acc (kv :: rest) = pickAux kv rest := by
        rw [pickAux, if_pos hcmp]
      rcases ih kv with ⟨heq, hbound⟩ | ⟨i, hi, heq, hgt, hbound, hpre⟩
      · refine Or.inr ⟨0, by simp, ?_, ?_, ?_, ?_⟩
        · simpa [hstep] using heq
        · rw [hstep, heq]; exact hcmp
        · intro x hx
          rw [hstep, heq]
          rcases List.mem_cons.mp hx with rfl | hx
          · exact Nat.le_refl _
          · exact hbound x hx
        · intro j hj; omega
      · refine Or.inr ⟨i + 1, by simpa using Nat.succ_lt_succ hi, ?_, ?_, ?_, ?_⟩
        · simpa [hstep] using heq
        · rw [hstep]; exact Nat.lt_trans hcmp hgt
        · intro x hx
          rw [hstep]
          rcases List.mem_cons.mp hx with rfl | hx
          · exact Nat.le_of_lt hgt
          · exact hbound x hx
        · intro j hj
          rw [hstep]
          cases j with
          | zero => simpa using hgt
          | succ j2 =>
            have hj2 : j2 < i := by omega
            simpa using hpre j2 hj2
    · have hstep : pickAux acc (kv :: rest) = pickAux acc rest := by
        rw [pickAux, if_neg hcmp]
      rcases ih acc with ⟨heq, hbound⟩ | ⟨i, hi, heq, hgt, hbound, hpre⟩
      · refine Or.inl ⟨by rw [hstep, heq], ?_⟩
        intro x hx
        rcases List.mem_cons.mp hx with rfl | hx
        · omega
        · exact hbound x hx
      · refine Or.inr ⟨i + 1, by simpa using Nat.succ_lt_succ hi, ?_, ?_, ?_, ?_⟩
        · simpa [hstep] using heq
        · rw [hstep]; exact hgt
        · intro x hx
          rw [hstep]
          rcases List.mem_cons.mp hx with rfl | hx
          · omega
          · exact hbound x hx
        · intro j hj
          rw [hstep]
          cases j with
          | zero => simpa using Nat.lt_of_le_of_lt (Nat.le_of_not_lt hcmp) hgt
          | succ j2 =>
            have hj2 : j2 < i := by omega
            simpa using hpre j2 hj2

theorem pickLatest_spec (vs : List (ViewerId × ViewerRec)) (hne : vs ≠ []) :
    ∃ p i, ∃ hi : i < vs.length,
      pickLatest vs = some p ∧ vs[i] = p ∧
      (∀ kv ∈ vs, kv.2.createdAt ≤ p.2.createdAt) ∧
      ∀ j, ∀ hj : j < i, (vs.get ⟨j, by omega⟩).2.createdAt < p.2.createdAt := by
  cases vs with
  | nil => exact absurd rfl hne
  | cons x rest =>
    have hstep : pickLatest (x :: rest) = some (pickAux x rest) := by
      rw [pickLatest, pickAux, if_neg (Nat.lt_irrefl _)]
    rcases pickAux_spec rest x with ⟨heq, hbound⟩ | ⟨i, hi, heq, hgt, hbound, hpre⟩
    · refine ⟨x, 0, by simp, ?_, by simp, ?_, ?_⟩
      · rw [hstep, heq]
      · intro kv hkv
        rcases List.mem_cons.mp hkv with rfl | hkv
        · exact Nat.le_refl _
        · exact hbound kv hkv
      · intro j hj; omega
    · refine ⟨pickAux x rest, i + 1, by simpa using Nat.succ_lt_succ hi, hstep, ?_, ?_, ?_⟩
      · simpa using heq.symm
      · intro kv hkv
        rcases List.mem_cons.mp hkv with rfl | hkv
        · exact Nat.le_of_lt hgt
        · exact hbound kv hkv
      · intro j hj
        cases j with
        | zero => simpa using hgt
        | succ j2 =>
          have hj2 : j2 < i := by omega
          simpa using hpre j2 hj2

theorem startsWithL_trans :
    ∀ {p q s : List Char}, startsWithL p q = true → startsWithL q s = true →
      startsWithL p s = true
  | [], _, _, _, _ => rfl
  | _ :: _, [], _, hpq, _ => by simp [startsWithL] at hpq
  | p :: ps, q :: qs, s, hpq, hqs => by
    cases s with
    | nil => simp [startsWithL] at hqs
    | cons c cs =>
      rw [startsWithL, Bool.and_eq_true, beq_iff_eq] at hpq hqs
      obtain ⟨rfl, hpq2⟩ := hpq
      obtain ⟨rfl, hqs2⟩ := hqs
      rw [startsWithL, Bool.and_eq_true, beq_iff_eq]
      exact ⟨rfl, startsWithL_trans hpq2 hqs2⟩

theorem parseImageDataUrl_starts {s ext0 b64 : String}
    (h : parseImageDataUrl s = some (ext0, b64)) :
    strStarts "data:" s = true := by
  by_cases h1 : startsWithL "data:image/".data s.data = true
  · exact startsWithL_trans (p := "data:".data) (by decide) h1
  · rw [parseImageDataUrl] at h
    simp only [] at h
    rw [if_neg h1] at h
    exact absurd h (by simp)

theorem mapIdx_mem {α β : Type} {f : Nat → α → β} {i : Nat} {l : List α} {y : β}
    (h : y ∈ mapIdx f i l) : ∃ j x, x ∈ l ∧ y = f j x := by
  induction l generalizing i with
  | nil => simp [mapIdx] at h
  | cons a rest ih =>
    rcases List.mem_cons.mp h with rfl | h2
    · exact ⟨i, a, by simp, rfl⟩
    · obtain ⟨j, x, hx, hy⟩ := ih h2
      exact ⟨j, x, List.mem_cons_of_mem _ hx, hy⟩

theorem mem_addSock_self (x : Nat) (l : List Nat) : x ∈ addSock x l := by
  rw [addSock]
  by_cases h : x ∈ l
  · simp [h]
  · simp [h]

/-! ## Projection lemmas for `handleIncomingPhotos` -/

theorem hipFinalize_viewersStore (env : Env) (st : St) (args : HipArgs) (vid : ViewerId) :
    (hipFinalize env st args vid).viewersStore =
      setA st.viewersStore vid
        ⟨vid, hipSess args,
          finalPhotosOf ((slotResults env st.gen args.photos).map Prod.fst),
          truthy (sideUpload env (st.gen + 3) "stories" args.storiesMontage).1,
          truthy (sideUpload env (st.gen + 4) "print" args.printImage).1,
          none, st.gen + 5⟩ := rfl

theorem hipFinalize_sessions (env : Env) (st : St) (args : HipArgs) (vid : ViewerId) :
    (hipFinalize env st args vid).sessions =
      modifySession st.sessions (hipSess args)
        (fun s => { s with
                    viewers := setA s.viewers vid
                      (⟨finalPhotosOf ((slotResults env st.gen args.photos).map Prod.fst),
                        truthy (sideUpload env (st.gen + 3) "stories" args.storiesMontage).1,
                        truthy (sideUpload env (st.gen + 4) "print" args.printImage).1,
                        none, st.gen + 5⟩ : ViewerRec) }) := rfl

theorem hipPlaceholder_sessions (st : St) (args : HipArgs) :
    (hipPlaceholder st args).2.sessions =
      modifySession (ensureSession st (hipSess args)).sessions (hipSess args)
        (fun s => { s with
                    viewers := setA s.viewers (hipPlaceholder st args).1
                      (⟨[], none, none, none,
                        (match args.providedViewerId with
                         | some _ => (ensureSession st (hipSess args)).gen
                         | none => (ensureSession st (hipSess args)).gen + 1)⟩ : ViewerRec) }) := by
  rw [hipPlaceholder]
  cases args.providedViewerId <;> rfl

theorem hipPlaceholder_vid_none (st : St) (args : HipArgs)
    (h : args.providedViewerId = none) :
    (hipPlaceholder st args).1 = (ensureSession st (hipSess args)).gen := by
  rw [hipPlaceholder, h]

theorem hipPlaceholder_session_mem (st : St) (args : HipArgs) :
    ∃ s, lookupA (hipPlaceholder st args).2.sessions (hipSess args) = some s := by
  rw [hipPlaceholder_sessions, lookupA_modifySession_self]
  obtain ⟨s, hsx⟩ := lookupA_ensureSession_self st (hipSess args)
  exact ⟨_, by rw [hsx]; rfl⟩

theorem hipPlaceholder_lookup (st : St) (args : HipArgs) :
    ∃ r, sessionViewerLookup (hipPlaceholder st args).2 (hipSess args)
        (hipPlaceholder st args).1 = some r ∧ r.photos = [] := by
  obtain ⟨s, hsx⟩ := lookupA_ensureSession_self st (hipSess args)
  rcases hpv : args.providedViewerId with _ | v
  · refine ⟨⟨[], none, none, none, (ensureSession st (hipSess args)).gen + 1⟩, ?_, rfl⟩
    rw [sessionViewerLookup, hipPlaceholder_sessions, lookupA_modifySession_self, hsx, hpv]
    simp [lookupA_setA_self]
  · refine ⟨⟨[], none, none, none, (ensureSession st (hipSess args)).gen⟩, ?_, rfl⟩
    rw [sessionViewerLookup, hipPlaceholder_sessions, lookupA_modifySession_self, hsx, hpv]
    simp [lookupA_setA_self]

theorem hipFinalize_lookup (env : Env) (st : St) (args : HipArgs) (vid : ViewerId)
    (h : ∃ s, lookupA st.sessions (hipSess args) = some s) :
    ∃ r, sessionViewerLookup (hipFinalize env st args vid) (hipSess args) vid = some r ∧
      r.photos = finalPhotosOf ((slotResults env st.gen args.photos).map Prod.fst) := by
  obtain ⟨s, hsx⟩ := h
  refine ⟨⟨finalPhotosOf ((slotResults env st.gen args.photos).map Prod.fst),
    truthy (sideUpload env (st.gen + 3) "stories" args.storiesMontage).1,
    truthy (sideUpload env (st.gen + 4) "print" args.printImage).1,
    none, st.gen + 5⟩, ?_, rfl⟩
  rw [sessionViewerLookup, hipFinalize_sessions, lookupA_modifySession_self, hsx]
  simp [lookupA_setA_self]

/-! ## Claim theorems -/

/-- C4: for every viewer identifier, `GET /api/viewer/:id` returns the
stored Viewer Record when the id is present in `viewersStore` and an
explicit 404 not-found response when it is absent (the handler is total, so
no exception is possible). -/
theorem apiViewer_found_or_404 (st : St) (vid : ViewerId) :
    (∀ v, lookupA st.viewersStore vid = some v →
      apiViewerGet st (some vid) = ApiResp.found v) ∧
    (lookupA st.viewersStore vid = none →
      apiViewerGet st (some vid) = ApiResp.notFound) := by
  constructor
  · intro v hv
    simp [apiViewerGet, hv]
  · intro hv
    simp [apiViewerGet, hv]

/-- Witness for C4 at a concrete one-record store. -/
theorem apiViewer_found_or_404_check :
    apiViewerGet ⟨[], [(5, ⟨5, "s1", ["u"], none, none, none, 3⟩)], [], [], 9⟩ (some 5) =
      ApiResp.found ⟨5, "s1", ["u"], none, none, none, 3⟩ ∧
    apiViewerGet ⟨[], [(5, ⟨5, "s1", ["u"], none, none, none, 3⟩)], [], [], 9⟩ (some 6) =
      ApiResp.notFound :=
  ⟨(apiViewer_found_or_404 _ 5).1 _ rfl, (apiViewer_found_or_404 _ 6).2 rfl⟩

/-- C10: `reset_session` of the persisted-viewers variant deletes only the
in-memory session entry; `viewersStore`, the persisted viewer files and the
uploads directory are untouched, other sessions are untouched, and
`GET /api/viewer/:id` answers exactly as before the reset. -/
theorem resetSession_keeps_viewers (st : St) (session : String) (h : session ≠ "") :
    (resetSessionV3 st session).viewersStore = st.viewersStore ∧
    (resetSessionV3 st session).viewerFiles = st.viewerFiles ∧
    (resetSessionV3 st session).uploads = st.uploads ∧
    lookupA (resetSessionV3 st session).sessions session = none ∧
    (∀ sid, sid ≠ session →
      lookupA (resetSessionV3 st session).sessions sid = lookupA st.sessions sid) ∧
    (∀ vid, apiViewerGet (resetSessionV3 st session) (some vid) =
      apiViewerGet st (some vid)) := by
  rw [resetSessionV3, if_neg h]
  cases hlk : lookupA st.sessions session with
  | none =>
    exact ⟨rfl, rfl, rfl, hlk, fun sid hsid => rfl, fun vid => rfl⟩
  | some s =>
    refine ⟨rfl, rfl, rfl, ?_, ?_, fun vid => rfl⟩
    · exact lookupA_eraseA_self st.sessions session
    · intro sid hsid
      exact lookupA_eraseA_ne st.sessions session sid (fun he => hsid he.symm)

/-- Witness for C10 at a concrete state holding one session and one
persisted viewer. -/
theorem resetSession_keeps_viewers_check :
    (resetSessionV3 ⟨[("s1", ⟨[(7, ⟨["x"], none, none, none, 1⟩)], [], some "f", 0⟩)],
        [(7, ⟨7, "s1", ["x"], none, none, none, 1⟩)], [], [], 8⟩ "s1").viewersStore =
      [(7, ⟨7, "s1", ["x"], none, none, none, 1⟩)] ∧
    (resetSessionV3 ⟨[("s1", ⟨[(7, ⟨["x"], none, none, none, 1⟩)], [], some "f", 0⟩)],
        [(7, ⟨7, "s1", ["x"], none, none, none, 1⟩)], [], [], 8⟩ "s1").viewerFiles = [] ∧
    (resetSessionV3 ⟨[("s1", ⟨[(7, ⟨["x"], none, none, none, 1⟩)], [], some "f", 0⟩)],
        [(7, ⟨7, "s1", ["x"], none, none, none, 1⟩)], [], [], 8⟩ "s1").uploads = [] ∧
    lookupA (resetSessionV3 ⟨[("s1", ⟨[(7, ⟨["x"], none, none, none, 1⟩)], [], some "f", 0⟩)],
        [(7, ⟨7, "s1", ["x"], none, none, none, 1⟩)], [], [], 8⟩ "s1").sessions "s1" = none ∧
    (∀ sid, sid ≠ "s1" →
      lookupA (resetSessionV3 ⟨[("s1", ⟨[(7, ⟨["x"], none, none, none, 1⟩)], [], some "f", 0⟩)],
          [(7, ⟨7, "s1", ["x"], none, none, none, 1⟩)], [], [], 8⟩ "s1").sessions sid =
        lookupA [("s1", (⟨[(7, ⟨["x"], none, none, none, 1⟩)], [], some "f", 0⟩ : SessionObj))] sid) ∧
    (∀ vid, apiViewerGet (resetSessionV3 ⟨[("s1", ⟨[(7, ⟨["x"], none, none, none, 1⟩)], [], some "f", 0⟩)],
        [(7, ⟨7, "s1", ["x"], none, none, none, 1⟩)], [], [], 8⟩ "s1") (some vid) =
      apiViewerGet ⟨[("s1", ⟨[(7, ⟨["x"], none, none, none, 1⟩)], [], some "f", 0⟩)],
        [(7, ⟨7, "s1", ["x"], none, none, none, 1⟩)], [], [], 8⟩ (some vid)) :=
  resetSession_keeps_viewers _ "s1" (by decide)

/-- C3: in the upload step of a finalize call, a string beginning with
`http://` or `https://` is passed through unchanged as the slot's photo URL,
and a string that is neither a data URL nor an http(s) URL resolves to
`null` for that slot without any error (the slot function is total and
performs no writes in either case). -/
theorem uploadSlot_pass_or_skip (env : Env) (tok i : Nat) (p : String) :
    ((strStarts "http://" p = true ∨ strStarts "https://" p = true) →
      uploadSlot env tok i p = (some p, [])) ∧
    ((strStarts "data:" p = false ∧ isHttpUrl p = false) →
      uploadSlot env tok i p = (none, [])) := by
  constructor
  · intro h
    rw [uploadSlot, if_neg (by simp [not_data_of_http h]), if_pos (isHttpUrl_of_starts h)]
  · rintro ⟨h1, h2⟩
    rw [uploadSlot, if_neg (by simp [h1]), if_neg (by simp [h2])]

/-- Witness for C3: a remote URL passes through, a plain word is skipped. -/
theorem uploadSlot_pass_or_skip_check :
    uploadSlot ⟨none, false, "https://festa.example", fun _ => none⟩ 0 0 "https://cdn/x.jpg" =
      (some "https://cdn/x.jpg", []) ∧
    uploadSlot ⟨none, false, "https://festa.example", fun _ => none⟩ 0 1 "garbage" =
      (none, []) :=
  ⟨(uploadSlot_pass_or_skip _ 0 0 _).1 (Or.inr (by decide)),
    (uploadSlot_pass_or_skip _ 0 1 _).2 ⟨by decide, by decide⟩⟩

/-- C2: for a valid image data URL, the upload step returns the host's
display URL when an API key is configured, `fetch` is available and the
host answers with success; when no key is configured, no `fetch` exists or
the remote call fails, it instead saves the decoded bytes under the local
uploads directory and returns the public origin concatenated with the local
file's path, the write carrying exactly the base64-decoded bytes, which are
then readable at that name in the file store. -/
theorem uploadSlot_gateway (env : Env) (tok i : Nat) (p ext0 b64 : String)
    (fs : List (String × List Nat))
    (hp : parseImageDataUrl p = some (ext0, b64)) :
    (∀ u, env.imgbbKey.isSome = true → env.fetchAvailable = true →
      env.remote (dataUrlTail p) = some u → u ≠ "" →
      uploadSlot env tok i p = (some u, [])) ∧
    ((env.imgbbKey = none ∨ env.fetchAvailable = false ∨
        env.remote (dataUrlTail p) = none) →
      uploadSlot env tok i p =
        (some (publicUrlOf env (fileNameOf ("photo_" ++ Nat.repr i) tok ext0)),
          [(fileNameOf ("photo_" ++ Nat.repr i) tok ext0, base64Decode b64)]) ∧
      lookupA (applyWrites fs
            [(fileNameOf ("photo_" ++ Nat.repr i) tok ext0, base64Decode b64)])
          (fileNameOf ("photo_" ++ Nat.repr i) tok ext0) = some (base64Decode b64)) := by
  have hdata := parseImageDataUrl_starts hp
  have hcomma := parseImageDataUrl_comma hp
  have hsplit : ¬ (splitOnChar ',' p.data).length < 2 := by
    have := splitOnChar_two_le ',' p.data hcomma
    omega
  have hsave : saveDataUrlToUploads env tok p ("photo_" ++ Nat.repr i) =
      some (publicUrlOf env (fileNameOf ("photo_" ++ Nat.repr i) tok ext0),
        (fileNameOf ("photo_" ++ Nat.repr i) tok ext0, base64Decode b64)) := by
    rw [saveDataUrlToUploads, hp]
  have hwrite : lookupA (applyWrites fs
        [(fileNameOf ("photo_" ++ Nat.repr i) tok ext0, base64Decode b64)])
      (fileNameOf ("photo_" ++ Nat.repr i) tok ext0) = some (base64Decode b64) := by
    show lookupA (setA fs _ _) _ = _
    exact lookupA_setA_self fs _ _
  constructor
  · intro u hkey hfetch hremote hu
    have hkn : env.imgbbKey.isNone = false := by
      cases hk : env.imgbbKey
      · rw [hk] at hkey; simp at hkey
      · rfl
    have himg : uploadToImgbbFromDataUrl env p = some u := by
      rw [uploadToImgbbFromDataUrl]
      rw [hkn, hfetch, hremote]
      simp only [Bool.false_eq_true, if_false, Bool.not_true, if_neg hsplit]
      rw [if_neg hu]
    rw [uploadSlot, if_pos hdata, if_pos (by rw [hkey, hfetch]; rfl), himg]
  · intro hfail
    by_cases hg : (env.imgbbKey.isSome && env.fetchAvailable) = true
    · have hremote : env.remote (dataUrlTail p) = none := by
        rcases hfail with hk | hf | hr
        · rw [Bool.and_eq_true] at hg
          rw [hk] at hg
          simp at hg
        · rw [Bool.and_eq_true] at hg
          rw [hf] at hg
          simp at hg
        · exact hr
      have hkn : env.imgbbKey.isNone = false := by
        rw [Bool.and_eq_true] at hg
        cases hk : env.imgbbKey
        · rw [hk] at hg; simp at hg
        · rfl
      have hfetch : env.fetchAvailable = true := by
        rw [Bool.and_eq_true] at hg
        exact hg.2
      have himg : uploadToImgbbFromDataUrl env p = none := by
        rw [uploadToImgbbFromDataUrl]
        rw [hkn, hfetch, hremote]
        simp only [Bool.false_eq_true, if_false, Bool.not_true, if_neg hsplit]
      rw [uploadSlot, if_pos hdata, if_pos hg, himg, hsave]
      exact ⟨rfl, hwrite⟩
    · rw [uploadSlot, if_pos hdata, if_neg hg, hsave]
      exact ⟨rfl, hwrite⟩

/-- Witness for C2: a successful host upload on one environment, the local
fallback (no key) on another, on the data URL `data:image/png;base64,QUJD`
whose payload decodes to the bytes `ABC`. -/
theorem uploadSlot_gateway_check :
    uploadSlot ⟨some "k", true, "https://festa.example",
        fun b => if b = "QUJD" then some "https://i.ibb.co/abc.png" else none⟩ 0 0
      "data:image/png;base64,QUJD" = (some "https://i.ibb.co/abc.png", []) ∧
    (uploadSlot ⟨none, true, "https://festa.example", fun _ => none⟩ 0 0
        "data:image/png;base64,QUJD" =
      (some "https://festa.example/uploads/photo_0-0.png",
        [("photo_0-0.png", [65, 66, 67])]) ∧
      lookupA (applyWrites [] [("photo_0-0.png", [65, 66, 67])]) "photo_0-0.png" =
        some [65, 66, 67]) :=
  ⟨(uploadSlot_gateway (⟨some "k", true, "https://festa.example",
        fun b => if b = "QUJD" then some "https://i.ibb.co/abc.png" else none⟩ : Env) 0 0
      "data:image/png;base64,QUJD" "png" "QUJD" [] rfl).1 "https://i.ibb.co/abc.png"
      rfl rfl rfl (by decide),
    (uploadSlot_gateway (⟨none, true, "https://festa.example", fun _ => none⟩ : Env) 0 0
      "data:image/png;base64,QUJD" "png" "QUJD" [] rfl).2 (Or.inl rfl)⟩

/-- C7: after an operator and a viewer joined a session, an operator
`stream_frame` delivers the identical frame payload to the viewer socket,
the frame is cached as the session's last frame, and a viewer joining
afterwards is backfilled with that cached frame without a re-send. -/
theorem v1_stream_relay (st0 : V1St) (op v1 v2 : Nat) (sid f : String)
    (hsid : sid ≠ "") (hf : f ≠ "") :
    V1Emit.toSocket v1 (.streamFrame sid f) ∈
      (v1StreamFrame (v1Join (v1Join st0 op sid "operator").1 v1 sid "viewer").1 sid f).2 ∧
    (v1GetSession
        (v1StreamFrame (v1Join (v1Join st0 op sid "operator").1 v1 sid "viewer").1 sid f).1
        sid).lastFrame = some f ∧
    V1Emit.toSocket v2 (.streamFrame sid f) ∈
      (v1Join
        (v1StreamFrame (v1Join (v1Join st0 op sid "operator").1 v1 sid "viewer").1 sid f).1
        v2 sid "viewer").2 := by
  have hguard : ¬ (sid = "" ∨ f = "") := by
    rintro (h | h)
    · exact hsid h
    · exact hf h
  have h1 : (v1Join st0 op sid "operator").1 =
      ⟨setA st0.sessions sid
        { v1GetSession st0 sid with
          operators := addSock op (v1GetSession st0 sid).operators }⟩ := by
    rw [v1Join, if_neg hsid]
    rfl
  have hget1 : v1GetSession (v1Join st0 op sid "operator").1 sid =
      { v1GetSession st0 sid with
        operators := addSock op (v1GetSession st0 sid).operators } := by
    rw [h1, v1GetSession]
    show ((lookupA (setA _ _ _) _).getD _) = _
    rw [lookupA_setA_self]
    rfl
  have h2 : (v1Join (v1Join st0 op sid "operator").1 v1 sid "viewer").1 =
      ⟨setA (v1Join st0 op sid "operator").1.sessions sid
        { v1GetSession (v1Join st0 op sid "operator").1 sid with
          viewers := addSock v1 (v1GetSession (v1Join st0 op sid "operator").1 sid).viewers }⟩ := by
    rw [v1Join, if_neg hsid]
    rfl
  have hget2 : v1GetSession (v1Join (v1Join st0 op sid "operator").1 v1 sid "viewer").1 sid =
      { v1GetSession (v1Join st0 op sid "operator").1 sid with
        viewers := addSock v1 (v1GetSession (v1Join st0 op sid "operator").1 sid).viewers } := by
    rw [h2, v1GetSession]
    show ((lookupA (setA _ _ _) _).getD _) = _
    rw [lookupA_setA_self]
    rfl
  have hstream : v1StreamFrame (v1Join (v1Join st0 op sid "operator").1 v1 sid "viewer").1 sid f =
      (⟨setA (v1Join (v1Join st0 op sid "operator").1 v1 sid "viewer").1.sessions sid
          { v1GetSession (v1Join (v1Join st0 op sid "operator").1 v1 sid "viewer").1 sid with
            lastFrame := some f }⟩,
        ({ v1GetSession (v1Join (v1Join st0 op sid "operator").1 v1 sid "viewer").1 sid with
            lastFrame := some f }).viewers.map
          (fun v => V1Emit.toSocket v (.streamFrame sid f))) := by
    rw [v1StreamFrame, if_neg hguard]
  constructor
  · rw [hstream]
    show V1Emit.toSocket v1 (.streamFrame sid f) ∈ List.map _ _
    refine List.mem_map_of_mem _ ?_
    rw [hget2]
    exact mem_addSock_self v1 _
  have hget3 : v1GetSession
      (v1StreamFrame (v1Join (v1Join st0 op sid "operator").1 v1 sid "viewer").1 sid f).1 sid =
      { v1GetSession (v1Join (v1Join st0 op sid "operator").1 v1 sid "viewer").1 sid with
        lastFrame := some f } := by
    rw [hstream, v1GetSession]
    show ((lookupA (setA _ _ _) _).getD _) = _
    rw [lookupA_setA_self]
    rfl
  refine ⟨by rw [hget3], ?_⟩
  rw [v1Join, if_neg hsid]
  show V1Emit.toSocket v2 (.streamFrame sid f) ∈ _ ++ _ ++ _
  rw [hget3]
  simp

/-- Witness for C7 on an empty initial state with sockets 1 (operator),
2 (viewer), 3 (late viewer). -/
theorem v1_stream_relay_check :
    V1Emit.toSocket 2 (.streamFrame "s1" "data:image/jpeg;base64,AAAA") ∈
      (v1StreamFrame (v1Join (v1Join ⟨[]⟩ 1 "s1" "operator").1 2 "s1" "viewer").1 "s1"
        "data:image/jpeg;base64,AAAA").2 ∧
    (v1GetSession
        (v1StreamFrame (v1Join (v1Join ⟨[]⟩ 1 "s1" "operator").1 2 "s1" "viewer").1 "s1"
          "data:image/jpeg;base64,AAAA").1
        "s1").lastFrame = some "data:image/jpeg;base64,AAAA" ∧
    V1Emit.toSocket 3 (.streamFrame "s1" "data:image/jpeg;base64,AAAA") ∈
      (v1Join
        (v1StreamFrame (v1Join (v1Join ⟨[]⟩ 1 "s1" "operator").1 2 "s1" "viewer").1 "s1"
          "data:image/jpeg;base64,AAAA").1
        3 "s1" "viewer").2 :=
  v1_stream_relay ⟨[]⟩ 1 2 3 "s1" "data:image/jpeg;base64,AAAA" (by decide) (by decide)

/-- C9: after `reset_session` on a session whose last preview frame was
cached, a viewer joining that session receives no `stream_frame` backfill at
all (in particular not the pre-reset frame) and receives `stream_pending`
instead. -/
theorem p1_reset_then_join (st : P1St) (sock : Nat) (session role f : String)
    (hrole : role ≠ "operator")
    (hcached : lookupA st.sessionState (p1Sid session) = some (some f)) :
    (∀ g, P1Emit.toSocket sock (.streamFrame (p1Sid session) g) ∉
      (p1Join (p1Reset st session).1 sock session role).2) ∧
    P1Emit.toSocket sock (.streamPending (p1Sid session)) ∈
      (p1Join (p1Reset st session).1 sock session role).2 := by
  have hreset : (p1Reset st session).1 = ⟨st.sessions, setA st.sessionState (p1Sid session) none⟩ := by
    rw [p1Reset]
    simp only [hcached]
  have hroleEff : (if role = "" then "viewer" else role) ≠ "operator" := by
    by_cases h0 : role = ""
    · simp [h0]
    · simpa [h0] using hrole
  have hlast : ∀ st1 : P1St, st1 = (p1Reset st session).1 →
      (lookupA (p1Ensure st1 (p1Sid session)).sessionState (p1Sid session)).getD none = none := by
    intro st1 hst1
    subst hst1
    rw [hreset, p1Ensure]
    cases hlk : lookupA (⟨st.sessions, setA st.sessionState (p1Sid session) none⟩ : P1St).sessions
        (p1Sid session) with
    | some m =>
      show (lookupA (setA st.sessionState (p1Sid session) none) (p1Sid session)).getD none = none
      rw [lookupA_setA_self]
      rfl
    | none =>
      show (lookupA (setA (setA st.sessionState (p1Sid session) none) (p1Sid session) none)
        (p1Sid session)).getD none = none
      rw [lookupA_setA_self]
      rfl
  have hlast2 := hlast (p1Reset st session).1 rfl
  rw [p1Join]
  simp only [hlast2, if_neg hroleEff]
  constructor
  · intro g hmem
    simp at hmem
  · simp

/-- Witness for C9: session `s1` had frame `F` cached, gets reset, and
socket 4 joins as viewer. -/
theorem p1_reset_then_join_check :
    (∀ g, P1Emit.toSocket 4 (.streamFrame (p1Sid "s1") g) ∉
      (p1Join (p1Reset (⟨[("s1", ⟨[6], []⟩)], [("s1", some "F")]⟩ : P1St) "s1").1 4 "s1"
        "viewer").2) ∧
    P1Emit.toSocket 4 (.streamPending (p1Sid "s1")) ∈
      (p1Join (p1Reset (⟨[("s1", ⟨[6], []⟩)], [("s1", some "F")]⟩ : P1St) "s1").1 4 "s1"
        "viewer").2 :=
  p1_reset_then_join ⟨[("s1", ⟨[6], []⟩)], [("s1", some "F")]⟩ 4 "s1" "viewer" "F"
    (by decide) rfl

/-- C8: a `viewer_join` carrying only a session resolves to the viewer
record of that session with the latest creation timestamp, joins the caller
to that record's viewer room and delivers that record's payload; among
records sharing the latest timestamp the first one in key-insertion order
is chosen. -/
theorem viewerJoin_latest (st : St) (session : String) (s : SessionObj)
    (hses : session ≠ "") (hs : lookupA st.sessions session = some s)
    (hne : s.viewers ≠ []) :
    ∃ p : ViewerId × ViewerRec, ∃ i, ∃ hi : i < s.viewers.length,
      viewerJoin st none session = ⟨some p.1, some (p.1, payloadOf p.2)⟩ ∧
      s.viewers[i] = p ∧
      (∀ kv ∈ s.viewers, kv.2.createdAt ≤ p.2.createdAt) ∧
      ∀ j, ∀ hj : j < i, (s.viewers.get ⟨j, by omega⟩).2.createdAt < p.2.createdAt := by
  obtain ⟨p, i, hi, hpick, hidx, hbound, hpre⟩ := pickLatest_spec s.viewers hne
  obtain ⟨k, v⟩ := p
  refine ⟨(k, v), i, hi, ?_, hidx, hbound, hpre⟩
  simp only [viewerJoin, if_neg hses, hs, hpick]

/-- Witness for C8: two records in session `s1`; the one with the later
timestamp (id 9) is resolved and delivered. -/
theorem viewerJoin_latest_check :
    ∃ p : ViewerId × ViewerRec, ∃ i,
      ∃ hi : i < ([(7, (⟨["a"], none, none, none, 1⟩ : ViewerRec)),
        (9, (⟨["b"], none, none, none, 5⟩ : ViewerRec))] : List (ViewerId × ViewerRec)).length,
      viewerJoin ⟨[("s1", ⟨[(7, ⟨["a"], none, none, none, 1⟩),
          (9, ⟨["b"], none, none, none, 5⟩)], [], none, 0⟩)], [], [], [], 10⟩ none "s1" =
        ⟨some p.1, some (p.1, payloadOf p.2)⟩ ∧
      ([(7, (⟨["a"], none, none, none, 1⟩ : ViewerRec)),
        (9, (⟨["b"], none, none, none, 5⟩ : ViewerRec))] : List (ViewerId × ViewerRec))[i] = p ∧
      (∀ kv ∈ ([(7, (⟨["a"], none, none, none, 1⟩ : ViewerRec)),
        (9, (⟨["b"], none, none, none, 5⟩ : ViewerRec))] : List (ViewerId × ViewerRec)),
        kv.2.createdAt ≤ p.2.createdAt) ∧
      ∀ j, ∀ hj : j < i,
        (([(7, (⟨["a"], none, none, none, 1⟩ : ViewerRec)),
          (9, (⟨["b"], none, none, none, 5⟩ : ViewerRec))] :
            List (ViewerId × ViewerRec)).get ⟨j, by omega⟩).2.createdAt < p.2.createdAt :=
  viewerJoin_latest ⟨[("s1", ⟨[(7, ⟨["a"], none, none, none, 1⟩),
      (9, ⟨["b"], none, none, none, 5⟩)], [], none, 0⟩)], [], [], [], 10⟩ "s1"
    ⟨[(7, ⟨["a"], none, none, none, 1⟩), (9, ⟨["b"], none, none, none, 5⟩)], [], none, 0⟩
    (by decide) rfl (by decide)

theorem routePlaceholderState_sessions (st : St) (session : String) :
    (routePlaceholderState st session).sessions =
      modifySession (ensureSession { st with gen := st.gen + 1 } session).sessions session
        (fun s => { s with
                    viewers := setA s.viewers st.gen
                      (⟨[], none, none, none,
                        (ensureSession { st with gen := st.gen + 1 } session).gen⟩ :
                        ViewerRec) }) := rfl

/-- C6: `POST /upload_photos` with a session and non-empty photos responds
immediately with `ok`, a freshly generated viewer id and the visualizador
link, before any upload work; from the response on, a viewer record with
that id exists in the session store with an empty photo list (also after
`handleIncomingPhotos` re-stores its placeholder), until the uploads
resolve and replace its fields. -/
theorem uploadPhotos_immediate (env : Env) (st : St) (session : String)
    (photos : List String) (hs : session ≠ "") (hp : photos ≠ [])
    (hfresh : freshSt st) :
    uploadPhotosRoute env st session photos =
      RouteOut.accepted ⟨true, st.gen, visUrl env st.gen⟩
        (routePlaceholderState st session)
        (hipPlaceholder (routePlaceholderState st session)
          ⟨session, photos, none, none, some st.gen⟩).2
        (hipFinalize env
          (hipPlaceholder (routePlaceholderState st session)
            ⟨session, photos, none, none, some st.gen⟩).2
          ⟨session, photos, none, none, some st.gen⟩ st.gen) ∧
    st.gen ∉ issuedIds st ∧
    (∃ r, sessionViewerLookup (routePlaceholderState st session) session st.gen = some r ∧
      r.photos = []) ∧
    (∃ r, sessionViewerLookup
        (hipPlaceholder (routePlaceholderState st session)
          ⟨session, photos, none, none, some st.gen⟩).2 session st.gen = some r ∧
      r.photos = []) ∧
    (∃ r, sessionViewerLookup
        (hipFinalize env
          (hipPlaceholder (routePlaceholderState st session)
            ⟨session, photos, none, none, some st.gen⟩).2
          ⟨session, photos, none, none, some st.gen⟩ st.gen) session st.gen = some r ∧
      r.photos = finalPhotosOf (hipPhotoResults env (routePlaceholderState st session)
        ⟨session, photos, none, none, some st.gen⟩)) := by
  have hcond : ¬ (session = "" ∨ photos.isEmpty) := by
    rintro (h | h)
    · exact hs h
    · exact hp (List.isEmpty_iff.mp h)
  have hsess : hipSess ⟨session, photos, none, none, some st.gen⟩ = session := by
    rw [hipSess]
    exact if_neg hs
  refine ⟨?_, ?_, ?_, ?_, ?_⟩
  · rw [uploadPhotosRoute, if_neg hcond]
    rfl
  · intro hmem
    exact absurd (hfresh _ hmem) (Nat.lt_irrefl _)
  · obtain ⟨s1, hs1⟩ := lookupA_ensureSession_self { st with gen := st.gen + 1 } session
    refine ⟨⟨[], none, none, none, (ensureSession { st with gen := st.gen + 1 } session).gen⟩,
      ?_, rfl⟩
    rw [sessionViewerLookup, routePlaceholderState_sessions, lookupA_modifySession_self, hs1]
    simp [lookupA_setA_self]
  · have h2 := hipPlaceholder_lookup (routePlaceholderState st session)
      ⟨session, photos, none, none, some st.gen⟩
    rw [hsess] at h2
    exact h2
  · have hmem2 := hipPlaceholder_session_mem (routePlaceholderState st session)
      ⟨session, photos, none, none, some st.gen⟩
    have h3 := hipFinalize_lookup env
      (hipPlaceholder (routePlaceholderState st session)
        ⟨session, photos, none, none, some st.gen⟩).2
      ⟨session, photos, none, none, some st.gen⟩ st.gen hmem2
    rw [hsess] at h3
    exact h3

/-- Witness for C6 on an empty store, session `s1` and one photo. -/
theorem uploadPhotos_immediate_check :
    uploadPhotosRoute ⟨none, false, "https://festa.example", fun _ => none⟩
        ⟨[], [], [], [], 0⟩ "s1" ["x"] =
      RouteOut.accepted ⟨true, 0, visUrl ⟨none, false, "https://festa.example", fun _ => none⟩ 0⟩
        (routePlaceholderState ⟨[], [], [], [], 0⟩ "s1")
        (hipPlaceholder (routePlaceholderState ⟨[], [], [], [], 0⟩ "s1")
          ⟨"s1", ["x"], none, none, some 0⟩).2
        (hipFinalize ⟨none, false, "https://festa.example", fun _ => none⟩
          (hipPlaceholder (routePlaceholderState ⟨[], [], [], [], 0⟩ "s1")
            ⟨"s1", ["x"], none, none, some 0⟩).2
          ⟨"s1", ["x"], none, none, some 0⟩ 0) ∧
    0 ∉ issuedIds ⟨[], [], [], [], 0⟩ ∧
    (∃ r, sessionViewerLookup (routePlaceholderState ⟨[], [], [], [], 0⟩ "s1") "s1" 0 = some r ∧
      r.photos = []) ∧
    (∃ r, sessionViewerLookup
        (hipPlaceholder (routePlaceholderState ⟨[], [], [], [], 0⟩ "s1")
          ⟨"s1", ["x"], none, none, some 0⟩).2 "s1" 0 = some r ∧
      r.photos = []) ∧
    (∃ r, sessionViewerLookup
        (hipFinalize ⟨none, false, "https://festa.example", fun _ => none⟩
          (hipPlaceholder (routePlaceholderState ⟨[], [], [], [], 0⟩ "s1")
            ⟨"s1", ["x"], none, none, some 0⟩).2
          ⟨"s1", ["x"], none, none, some 0⟩ 0) "s1" 0 = some r ∧
      r.photos = finalPhotosOf (hipPhotoResults ⟨none, false, "https://festa.example", fun _ => none⟩
        (routePlaceholderState ⟨[], [], [], [], 0⟩ "s1") ⟨"s1", ["x"], none, none, some 0⟩)) :=
  uploadPhotos_immediate ⟨none, false, "https://festa.example", fun _ => none⟩
    ⟨[], [], [], [], 0⟩ "s1" ["x"] (by decide) (by decide) (fun id hmem => by simp [issuedIds] at hmem)

theorem hipRun_eta (env : Env) (st : St) (args : HipArgs) :
    hipRun env st args =
      ((hipPlaceholder st args).1, (hipPlaceholder st args).2,
        hipFinalize env (hipPlaceholder st args).2 args (hipPlaceholder st args).1) := by
  rcases hpl : hipPlaceholder st args with ⟨vid, st1⟩
  rw [hipRun, hpl]

theorem hipPhotoResults_length (env : Env) (st : St) (args : HipArgs) :
    (hipPhotoResults env st args).length = (args.photos.take 3).length := by
  rw [hipPhotoResults, List.length_map, slotResults, mapIdx_length]

theorem hipPhotoResults_elem (env : Env) (st : St) (args : HipArgs)
    (hall : ∀ r ∈ hipPhotoResults env st args, r.isSome = true) :
    ∀ x ∈ hipPhotoResults env st args, ∃ u, x = some u ∧ u ≠ "" := by
  intro x hx
  obtain ⟨u, hu⟩ := Option.isSome_iff_exists.mp (hall x hx)
  rw [hipPhotoResults] at hx
  obtain ⟨slot, hslot, hfx⟩ := List.mem_map.mp hx
  rw [slotResults] at hslot
  obtain ⟨j, p, hp, hslot2⟩ := mapIdx_mem hslot
  refine ⟨u, hu, ?_⟩
  have : (uploadSlot env ((hipPlaceholder st args).2.gen + j) j p).1 = some u := by
    rw [← hslot2, hfx, hu]
  exact uploadSlot_some_ne_empty this

/-- C1: a finalize call (`handleIncomingPhotos`) with `N ≤ 3` photos whose
uploads all resolve to a URL stores a Viewer Record holding exactly `N`
photo URLs after the null filter, under a viewer identifier different from
every identifier previously issued by the store. -/
theorem hip_exact_photos (env : Env) (st : St) (args : HipArgs)
    (hgen : args.providedViewerId = none) (hfresh : freshSt st)
    (hlen : args.photos.length ≤ 3)
    (hall : ∀ r ∈ hipPhotoResults env st args, r.isSome = true) :
    (hipRun env st args).1 ∉ issuedIds st ∧
    ∃ stored,
      lookupA (hipRun env st args).2.2.viewersStore (hipRun env st args).1 = some stored ∧
      stored.photos.length = args.photos.length := by
  have hlen2 : (hipPhotoResults env st args).length = args.photos.length := by
    rw [hipPhotoResults_length, List.take_of_length_le hlen]
  have helem := hipPhotoResults_elem env st args hall
  rw [hipRun_eta]
  constructor
  · show (hipPlaceholder st args).1 ∉ issuedIds st
    rw [hipPlaceholder_vid_none st args hgen]
    intro hmem
    have h1 : (ensureSession st (hipSess args)).gen < st.gen := hfresh _ hmem
    have h2 := gen_ensureSession st (hipSess args)
    exact Nat.lt_irrefl _ (Nat.lt_of_le_of_lt h2 h1)
  · show ∃ stored,
      lookupA (hipFinalize env (hipPlaceholder st args).2 args
        (hipPlaceholder st args).1).viewersStore (hipPlaceholder st args).1 = some stored ∧
      stored.photos.length = args.photos.length
    rw [hipFinalize_viewersStore]
    refine ⟨_, lookupA_setA_self _ _ _, ?_⟩
    show (finalPhotosOf (hipPhotoResults env st args)).length = args.photos.length
    rw [finalPhotosOf_length _ helem (by rw [hlen2]; exact hlen), hlen2]

/-- Witness for C1: two data-URL photos saved through the local fallback
(no API key) out of an empty store. -/
theorem hip_exact_photos_check :
    (hipRun ⟨none, false, "https://festa.example", fun _ => none⟩ ⟨[], [], [], [], 0⟩
      ⟨"s1", ["data:image/png;base64,QUJD", "data:image/jpeg;base64,QUJD"], none, none,
        none⟩).1 ∉ issuedIds ⟨[], [], [], [], 0⟩ ∧
    ∃ stored,
      lookupA (hipRun ⟨none, false, "https://festa.example", fun _ => none⟩ ⟨[], [], [], [], 0⟩
          ⟨"s1", ["data:image/png;base64,QUJD", "data:image/jpeg;base64,QUJD"], none, none,
            none⟩).2.2.viewersStore
        (hipRun ⟨none, false, "https://festa.example", fun _ => none⟩ ⟨[], [], [], [], 0⟩
          ⟨"s1", ["data:image/png;base64,QUJD", "data:image/jpeg;base64,QUJD"], none, none,
            none⟩).1 = some stored ∧
      stored.photos.length =
        (["data:image/png;base64,QUJD", "data:image/jpeg;base64,QUJD"] : List String).length :=
  hip_exact_photos ⟨none, false, "https://festa.example", fun _ => none⟩ ⟨[], [], [], [], 0⟩
    ⟨"s1", ["data:image/png;base64,QUJD", "data:image/jpeg;base64,QUJD"], none, none, none⟩
    rfl (fun id hmem => by simp [issuedIds] at hmem) (by decide) (by decide)

theorem hipPhotoResults_get (env : Env) (st : St) (args : HipArgs) (i : Nat)
    (hi : i < (args.photos.take 3).length) :
    (hipPhotoResults env st args).get ⟨i, by rw [hipPhotoResults_length]; exact hi⟩ =
      (uploadSlot env ((hipPlaceholder st args).2.gen + i) i
        ((args.photos.take 3).get ⟨i, hi⟩)).1 := by
  simp only [hipPhotoResults, slotResults, List.get_eq_getElem, List.getElem_map]
  have h2 := mapIdx_get (fun k p => uploadSlot env ((hipPlaceholder st args).2.gen + k) k p) 0
    (args.photos.take 3) i hi
  simp only [List.get_eq_getElem, Nat.zero_add] at h2
  rw [h2]

/-- C5: the finalize fan-out gives every photo slot an outcome that depends
only on that slot's own input (so one failed upload cannot abort or alter a
sibling upload), and the Viewer Record is written only twice: the empty
placeholder before the uploads, and the final record built from the
complete outcome list after every upload has an outcome. -/
theorem hip_fanout_fanin (env : Env) (st : St) (sess : String) (pvid : Option ViewerId)
    (stories printIm : Option String) (photos photos2 : List String) (j : Nat)
    (hlen : photos.length = photos2.length)
    (hagree : ∀ k, ∀ hk : k < photos.length, k ≠ j →
      photos.get ⟨k, hk⟩ = photos2.get ⟨k, by omega⟩) :
    (∀ i, ∀ hi : i < (photos.take 3).length, i ≠ j →
      (hipPhotoResults env st ⟨sess, photos, stories, printIm, pvid⟩).get ⟨i, by
          rw [hipPhotoResults_length]
          exact hi⟩ =
        (hipPhotoResults env st ⟨sess, photos2, stories, printIm, pvid⟩).get ⟨i, by
          rw [hipPhotoResults_length]
          simp only [List.length_take] at hi ⊢
          omega⟩) ∧
    (∃ r, sessionViewerLookup (hipRun env st ⟨sess, photos, stories, printIm, pvid⟩).2.1
        (hipSess ⟨sess, photos, stories, printIm, pvid⟩)
        (hipRun env st ⟨sess, photos, stories, printIm, pvid⟩).1 = some r ∧
      r.photos = []) ∧
    (∃ r, sessionViewerLookup (hipRun env st ⟨sess, photos, stories, printIm, pvid⟩).2.2
        (hipSess ⟨sess, photos, stories, printIm, pvid⟩)
        (hipRun env st ⟨sess, photos, stories, printIm, pvid⟩).1 = some r ∧
      r.photos = finalPhotosOf (hipPhotoResults env st ⟨sess, photos, stories, printIm, pvid⟩)) := by
  refine ⟨?_, ?_, ?_⟩
  · intro i hi hij
    have hi2 : i < (photos2.take 3).length := by
      simp only [List.length_take] at hi ⊢
      omega
    rw [hipPhotoResults_get env st ⟨sess, photos, stories, printIm, pvid⟩ i hi,
      hipPhotoResults_get env st ⟨sess, photos2, stories, printIm, pvid⟩ i hi2]
    have hbase : (hipPlaceholder st ⟨sess, photos, stories, printIm, pvid⟩).2.gen =
        (hipPlaceholder st ⟨sess, photos2, stories, printIm, pvid⟩).2.gen := rfl
    have hik : i < photos.length := by
      simp only [List.length_take] at hi
      omega
    have hsame : (photos.take 3).get ⟨i, hi⟩ = (photos2.take 3).get ⟨i, hi2⟩ := by
      simp only [List.get_eq_getElem, List.getElem_take]
      have := hagree i hik hij
      simpa [List.get_eq_getElem] using this
    rw [hbase, hsame]
  · rw [hipRun_eta]
    exact hipPlaceholder_lookup st ⟨sess, photos, stories, printIm, pvid⟩
  · rw [hipRun_eta]
    exact hipFinalize_lookup env (hipPlaceholder st ⟨sess, photos, stories, printIm, pvid⟩).2
      ⟨sess, photos, stories, printIm, pvid⟩
      (hipPlaceholder st ⟨sess, photos, stories, printIm, pvid⟩).1
      (hipPlaceholder_session_mem st ⟨sess, photos, stories, printIm, pvid⟩)

/-- Witness for C5: two runs differing only in slot 1 (which fails in both
shapes); slot 0's outcome is unchanged and the record trace is the
placeholder followed by the aggregated result. -/
theorem hip_fanout_fanin_check :
    (∀ i, ∀ hi : i < ((["https://a/x.jpg", "bad"] : List String).take 3).length, i ≠ 1 →
      (hipPhotoResults ⟨none, false, "https://festa.example", fun _ => none⟩
          ⟨[], [], [], [], 0⟩ ⟨"s1", ["https://a/x.jpg", "bad"], none, none, none⟩).get ⟨i, by
          rw [hipPhotoResults_length]
          exact hi⟩ =
        (hipPhotoResults ⟨none, false, "https://festa.example", fun _ => none⟩
          ⟨[], [], [], [], 0⟩ ⟨"s1", ["https://a/x.jpg", "worse"], none, none, none⟩).get ⟨i, by
          rw [hipPhotoResults_length]
          exact hi⟩) ∧
    (∃ r, sessionViewerLookup
        (hipRun ⟨none, false, "https://festa.example", fun _ => none⟩ ⟨[], [], [], [], 0⟩
          ⟨"s1", ["https://a/x.jpg", "bad"], none, none, none⟩).2.1
        (hipSess ⟨"s1", ["https://a/x.jpg", "bad"], none, none, none⟩)
        (hipRun ⟨none, false, "https://festa.example", fun _ => none⟩ ⟨[], [], [], [], 0⟩
          ⟨"s1", ["https://a/x.jpg", "bad"], none, none, none⟩).1 = some r ∧
      r.photos = []) ∧
    (∃ r, sessionViewerLookup
        (hipRun ⟨none, false, "https://festa.example", fun _ => none⟩ ⟨[], [], [], [], 0⟩
          ⟨"s1", ["https://a/x.jpg", "bad"], none, none, none⟩).2.2
        (hipSess ⟨"s1", ["https://a/x.jpg", "bad"], none, none, none⟩)
        (hipRun ⟨none, false, "https://festa.example", fun _ => none⟩ ⟨[], [], [], [], 0⟩
          ⟨"s1", ["https://a/x.jpg", "bad"], none, none, none⟩).1 = some r ∧
      r.photos = finalPhotosOf (hipPhotoResults ⟨none, false, "https://festa.example", fun _ => none⟩
        ⟨[], [], [], [], 0⟩ ⟨"s1", ["https://a/x.jpg", "bad"], none, none, none⟩)) :=
  hip_fanout_fanin ⟨none, false, "https://festa.example", fun _ => none⟩ ⟨[], [], [], [], 0⟩
    "s1" none none none ["https://a/x.jpg", "bad"] ["https://a/x.jpg", "worse"] 1 rfl
    (by
      intro k hk hkj
      rcases k with _ | k1
      · rfl
      · rcases k1 with _ | k2
        · exact absurd rfl hkj
        · have h2 : k2 + 1 + 1 < 2 := by simpa using hk
          omega)
